import Mathlib

/-!
Verification of the rolling-replacement module for elastic compute groups
(`ec2_asg.py`) against its natural-language specification.

The Python source is shallow-embedded below.  Dynamic API records become
structures; the control plane, the load balancers and real time are
abstracted into an explicit environment: each `describe` call reads the
next snapshot from the environment, each timeout-bounded polling wait
consumes the next environment-chosen outcome, and every mutating API call
is recorded in an event trace.  Machine conditions (`if x:` truthiness on
sets and lists, adjacent string-literal concatenation, negative list
slices) are translated with their Python semantics.
-/

namespace Ec2Asg

/-- A member record of the group as returned by the control plane
(`asg['Instances'][k]`), restricted to the fields the module reads
(`INSTANCE_ATTRIBUTES`). -/
structure Instance where
  instanceId : String
  lifecycleState : String
  healthStatus : String
  launchConfigurationName : String
deriving DecidableEq, Repr

/-- A member record as a Python dict value.  `full` is a complete record as
returned by `describe_auto_scaling_groups`; `idOnly` is the one-key dict
`\x7b'InstanceId': x\x7d` that `replace` builds from the `replace_instances`
parameter (lines 723-726).  Dict equality: two dicts are equal only when
they have the same keys and values, so a `full` record never equals an
`idOnly` record. -/
inductive InstRec where
  | full (i : Instance)
  | idOnly (id : String)
deriving DecidableEq, Repr

/-- Dict access `rec['InstanceId']`: defined on both dict shapes. -/
def InstRec.instId : InstRec → String
  | .full i => i.instanceId
  | .idOnly s => s

/-- Dict access `rec['LaunchConfigurationName']`: a KeyError on the one-key dict shape,
hence an `Option`. -/
def InstRec.lcName : InstRec → Option String
  | .full i => some i.launchConfigurationName
  | .idOnly _ => none

/-- A group snapshot (`describe_auto_scaling_groups` response), restricted
to the fields the replacement core reads. -/
structure Asg where
  minSize : Int
  maxSize : Int
  desiredCapacity : Int
  launchConfigurationName : String
  loadBalancerNames : List String
  targetGroupARNs : List String
  healthCheckType : String
  instances : List Instance
deriving DecidableEq, Repr

/-- Function `update_size` (lines 699-709): writes the three size fields into the
group dict and submits the updatable attributes.  No clamping is performed;
the submitted triple is exactly the arguments. -/
def update_size (asg : Asg) (max_size min_size dc : Int) : Asg :=
  { asg with maxSize := max_size, minSize := min_size, desiredCapacity := dc }

/-- The clamp performed by `create_autoscaling_group` on the update path
(lines 637-640): first raise `DesiredCapacity` to `MinSize`, then lower it
to `MaxSize`, sequentially. -/
def clampDesired (minS maxS dc : Int) : Int :=
  let dc1 := if dc < minS then minS else dc
  if dc1 > maxS then maxS else dc1

/-- Function `get_instances_by_lc` (lines 794-815): partition the group's current
members into (new, old).  With `lc_check` the test is launch-configuration
equality; without it the test is `i not in initial_instances`, which is
Python dict equality against the whole record, not an instance-id
comparison. -/
def get_instances_by_lc (asg : Asg) (lc_check : Bool)
    (initial_instances : List InstRec) : List Instance × List Instance :=
  if lc_check then
    asg.instances.partition
      (fun i => i.launchConfigurationName = asg.launchConfigurationName)
  else
    asg.instances.partition (fun i => InstRec.full i ∉ initial_instances)

/-- Python list slice `l[:n]` for an `int` bound: for nonnegative `n` the
first `n` elements, for negative `n` everything but the last `-n`. -/
def pySliceTo (l : List α) (n : Int) : List α :=
  if 0 ≤ n then l.take n.toNat else l.take (l.length - (-n).toNat)

/-- Function `list_purgeable_instances` (lines 818-837): keep the candidates whose
id appears in the group, then filter by launch-config mismatch
(`lc_check`) or by membership in the initial snapshot.  The `lc_check`
branch reads `i['LaunchConfigurationName']` on the candidate record, which
is a KeyError when the candidate is an id-only dict. -/
def list_purgeable_instances (asg : Asg) (lc_check : Bool)
    (replace_instances initial_instances : List InstRec) :
    Except String (List InstRec) :=
  let instances := replace_instances.filter
    (fun inst => asg.instances.any (fun a => inst.instId = a.instanceId))
  if lc_check then
    if instances.all (fun i => i.lcName ≠ none) then
      .ok (instances.filter (fun i => i.lcName ≠ some asg.launchConfigurationName))
    else
      .error "KeyError: LaunchConfigurationName"
  else
    .ok (instances.filter (fun i => i ∈ initial_instances))

/-- Auxiliary for `get_chunks`: split into chunks of size `k + 1`.  The
first argument is a structural-recursion bound; it is always called with
the list's length, which suffices because every step consumes at least one
element. -/
def chunksAux (k : Nat) : Nat → List α → List (List α)
  | 0, _ => []
  | _, [] => []
  | fuel + 1, a :: l => (a :: l.take k) :: chunksAux k fuel (l.drop k)

/-- Function `get_chunks` (lines 694-696): `l[i:i+n]` for `i in range(0, len(l), n)`.
A negative step makes the range empty; step `0` (a ValueError in Python) is
unreachable from `replace` and also modelled as no chunks. -/
def get_chunks (l : List α) (n : Int) : List (List α) :=
  if n ≤ 0 then [] else chunksAux (n.toNat - 1) l.length l

/-! ### The updatable-attribute allow-list (claim C10)

`ANSIBLE_ASG_UPDATABLE_ATTRIBUTES` (lines 255-268).  In the source the
last two entries are the adjacent string literals `'vpc_zone_identifier'`
and `'termination_policies'` with no comma between them, which Python
concatenates into one string. -/

def ANSIBLE_ASG_UPDATABLE_ATTRIBUTES : List String :=
  ["name",
   "launch_config_name",
   "min_size",
   "max_size",
   "desired_capacity",
   "default_cooldown",
   "availability_zones",
   "health_check_type",
   "health_check_period",
   "placement_group",
   "vpc_zone_identifier" ++ "termination_policies"]

/-- A module-parameter or group-attribute value as the compare loop sees
it: an integer, a string, or a list of strings. -/
inductive AttrVal where
  | int (n : Int)
  | str (s : String)
  | strList (l : List String)
deriving DecidableEq, Repr

/-- The module parameters that carry comparable attribute values
(`module.params`), one field per declared option the compare loop can
name.  `module.params.get(attr, None)` on any other name returns `None`. -/
structure UpdateParams where
  name : Option AttrVal := none
  launch_config_name : Option AttrVal := none
  min_size : Option AttrVal := none
  max_size : Option AttrVal := none
  desired_capacity : Option AttrVal := none
  default_cooldown : Option AttrVal := none
  availability_zones : Option AttrVal := none
  health_check_type : Option AttrVal := none
  health_check_period : Option AttrVal := none
  placement_group : Option AttrVal := none
  vpc_zone_identifier : Option AttrVal := none
  termination_policies : Option AttrVal := none
deriving Repr

/-- Lookup `module.params.get(attr, None)`: dispatch on the declared option names;
any undeclared name yields `None`. -/
def UpdateParams.get (p : UpdateParams) (attr : String) : Option AttrVal :=
  if attr = "name" then p.name
  else if attr = "launch_config_name" then p.launch_config_name
  else if attr = "min_size" then p.min_size
  else if attr = "max_size" then p.max_size
  else if attr = "desired_capacity" then p.desired_capacity
  else if attr = "health_check_type" then p.health_check_type
  else if attr = "health_check_period" then p.health_check_period
  else if attr = "default_cooldown" then p.default_cooldown
  else if attr = "availability_zones" then p.availability_zones
  else if attr = "placement_group" then p.placement_group
  else if attr = "vpc_zone_identifier" then p.vpc_zone_identifier
  else if attr = "termination_policies" then p.termination_policies
  else none

/-- Sorting `x.sort()` as applied in the compare loop (lines 560-568): lists sort
in place, other values raise inside a bare try/except and stay unchanged. -/
def sortVal : AttrVal → AttrVal
  | .strList l => .strList (l.mergeSort (fun a b => ¬ b < a))
  | v => v

/-- The `','.join(module_attr)` special case for `vpc_zone_identifier`
(lines 555-556). -/
def joinVal : AttrVal → AttrVal
  | .strList l => .str (String.intercalate "," l)
  | v => v

/-- The body of the update compare loop (lines 552-571) for one attribute:
does the module parameter, after the join and sort normalisations, differ
from the group's value? -/
def attrDiffers (p : UpdateParams) (asgAttr : String → AttrVal)
    (attr : String) : Bool :=
  match p.get attr with
  | none => false
  | some v =>
      let module_attr := if attr = "vpc_zone_identifier" then joinVal v else v
      let group_attr := asgAttr attr
      let module_attr :=
        if attr ≠ "termination_policies" then sortVal module_attr else module_attr
      let group_attr :=
        if attr ≠ "termination_policies" then sortVal group_attr else group_attr
      group_attr ≠ module_attr

/-- The `changed` flag computed by the compare loop of
`create_autoscaling_group`'s existing-group branch: some listed attribute
was supplied and differs. -/
def update_changed (p : UpdateParams) (asgAttr : String → AttrVal) : Bool :=
  ANSIBLE_ASG_UPDATABLE_ATTRIBUTES.any (fun attr => attrDiffers p asgAttr attr)

/-! ### Health Aggregator (`elb_healthy`, lines 364-432) -/

/-- A `botocore.exceptions.ClientError` from a describe call, carrying the
error code and message of its response data (`e.response['Error']`).  The
handler at line 392 intends to read the code but subscripts the exception
object itself (`e['Error']`), which raises TypeError, so these fields are
never actually reached by the source. -/
structure ClientError where
  code : String
  msg : String
deriving DecidableEq, Repr

/-- The outcome of one `describe_instance_health` call against a classic
load balancer: the per-instance states `(InstanceId, State)`, or a client
error. -/
inductive LBResp where
  | ok (states : List (String × String))
  | err (e : ClientError)
deriving Repr

/-- The result of `elb_healthy`: a returned count, or the uncaught
TypeError the except handler raises on any client error.  The bare
`return None` at line 393 and the `fail_json` at line 395 sit behind the
failing `e['Error']` subscript and are unreachable. -/
inductive HealthyResult where
  | count (n : Nat)
  | typeError
deriving DecidableEq, Repr

/-- The accumulator update at lines 402-405 and 424-427:
`if healthy_instances: intersect else: assign`.  Python truthiness makes an
empty accumulated set indistinguishable from the initial `None`, so an
empty intermediate intersection is replaced by the next resource's set. -/
def truthyUpd (h : Option (Finset String)) (newH : Finset String) :
    Option (Finset String) :=
  match h with
  | some s => if s.Nonempty then some (s ∩ newH) else some newH
  | none => some newH

/-- The healthy set one classic load balancer reports: the ids whose state
is `InService`. -/
def lbHealthySet (states : List (String × String)) : Finset String :=
  ((states.filter (fun s => s.2 = "InService")).map (fun s => s.1)).toFinset

/-- The healthy set one target group reports: the target ids whose state is
`healthy`. -/
def tgHealthySet (states : List (String × String)) : Finset String :=
  ((states.filter (fun s => s.2 = "healthy")).map (fun s => s.1)).toFinset

/-- Outcome of the classic-load-balancer loop of `elb_healthy`: finished
with the accumulator, or crashed with an uncaught TypeError inside the
except handler. -/
inductive LBLoopOut where
  | done (h : Option (Finset String))
  | typeError

/-- The loop over `asg['LoadBalancerNames']` (lines 384-405).  On a caught
ClientError the handler at line 392 evaluates `e['Error']` on the
exception object itself; a botocore ClientError is not subscriptable
(under Python 2, indexing a BaseException addresses its `args` tuple and
a string index is equally a TypeError), so the handler raises TypeError
before comparing any code, and nothing catches it. -/
def lbLoop (resp : String → LBResp) :
    List String → Option (Finset String) → LBLoopOut
  | [], h => .done h
  | lb :: rest, h =>
      match resp lb with
      | .err _ => .typeError
      | .ok states => lbLoop resp rest (truthyUpd h (lbHealthySet states))

/-- The loop over the described target groups (lines 407-427); the
`describe_target_health` call has no error handler. -/
def tgLoop (resp : String → List (String × String)) :
    List String → Option (Finset String) → Option (Finset String)
  | [], h => h
  | tg :: rest, h => tgLoop resp rest (truthyUpd h (tgHealthySet (resp tg)))

/-- The viability filter at lines 368-379: `InService`, `Healthy`, and the
launch-configuration match when a name is given (`if (launch_config_name):`
is false for `None`). -/
def viableIds (asg : Asg) (launch_config_name : Option String) : List String :=
  (asg.instances.filter (fun i =>
      i.lifecycleState == "InService" && i.healthStatus == "Healthy" &&
        match launch_config_name with
        | some lc => i.launchConfigurationName == lc
        | none => true)).map (fun i => i.instanceId)

/-- Function `elb_healthy` (lines 364-432): short-circuit on an empty candidate
list, fold the classic-load-balancer results, then the target-group
results, with the truthiness accumulator; return the final set's size
(an empty or absent final set reports 0). -/
def elb_healthy (asg : Asg) (launch_config_name : Option String)
    (lbResp : String → LBResp) (tgResp : String → List (String × String)) :
    HealthyResult :=
  let instances := viableIds asg launch_config_name
  if instances.isEmpty then .count 0
  else
    match lbLoop lbResp asg.loadBalancerNames none with
    | .typeError => .typeError
    | .done h =>
        let h1 := if asg.targetGroupARNs.isEmpty then h
                  else tgLoop tgResp asg.targetGroupARNs h
        match h1 with
        | some s => if s.Nonempty then .count s.card else .count 0
        | none => .count 0

/-! ### Deregistration Coordinator (`elb_dreg`, lines 310-361) -/

/-- The in-service count one poll of `elb_dreg`'s wait loop computes
(lines 340-356): over every attached classic load balancer, the entries
reporting the instance `InService`, plus over every attached target group,
the entries reporting the instance `healthy`. -/
def dreg_count (lbNames tgARNs : List String)
    (lbStates tgStates : String → List (String × String))
    (instId : String) : Nat :=
  (lbNames.map (fun lb =>
      ((lbStates lb).filter (fun s => s.1 = instId ∧ s.2 = "InService")).length)).sum
  + (tgARNs.map (fun tg =>
      ((tgStates tg).filter (fun s => s.1 = instId ∧ s.2 = "healthy")).length)).sum

/-- The timeout-bounded poll loop of `elb_dreg` (lines 338-361), with the
remaining poll budget as fuel: poll round `k` recomputes the count; the
loop ends successfully when the count reaches zero, and the deadline
check after the loop fails the module when the fuel ran out first.
`true` means the instance deregistered in time. -/
def elb_dreg_poll (f : Nat → Nat) : Nat → Nat → Bool
  | _, 0 => false
  | k, fuel + 1 => if f k = 0 then true else elb_dreg_poll f (k + 1) fuel

/-- Function wait phase of elb_dreg: poll the combined in-service count built from
the per-round load-balancer and target-group reports. -/
def elb_dreg_wait (lbNames tgARNs : List String)
    (lbStates tgStates : Nat → String → List (String × String))
    (instId : String) (fuel : Nat) : Bool :=
  elb_dreg_poll
    (fun k => dreg_count lbNames tgARNs (lbStates k) (tgStates k) instId) 0 fuel

/-! ### The orchestrator as a trace-producing run (`replace`,
`terminate_batch`, `elb_dreg`)

The control plane and the clocks are abstracted into an environment:
`asgs k` is the group snapshot the `k`-th `get_asg_by_name` call returns;
`waits k` is the outcome of the `k`-th timeout-bounded polling wait
(`wait_for_new_inst`, `wait_for_elb`, `wait_for_term_inst`, and
`elb_dreg`'s own wait), `true` when the awaited condition was reached
before the deadline; `lbsListing k` lists the classic load balancers whose
description lists the instance at the `k`-th `elb_dreg` invocation.  The
numeric thresholds the waits poll against are part of the awaited
condition and are absorbed into the environment's outcome.  Every mutating
control-plane call is recorded in the event trace. -/

/-- One mutating control-plane call. -/
inductive MutCall where
  /-- `update_auto_scaling_group` with the submitted
  `(MaxSize, MinSize, DesiredCapacity)` triple. -/
  | updateSize (maxSize minSize desired : Int)
  /-- `deregister_instances_from_load_balancer`. -/
  | deregLB (lb inst : String)
  /-- `deregister_targets`. -/
  | deregTG (tg inst : String)
  /-- `terminate_instance_in_auto_scaling_group` with
  `ShouldDecrementDesiredCapacity`. -/
  | terminate (inst : String) (decrement : Bool)
deriving DecidableEq, Repr

/-- The abstracted external world of one module run. -/
structure Env where
  asgs : Nat → Asg
  waits : Nat → Bool
  lbsListing : Nat → List String

/-- Run state: the call counters into the environment and the mutation
trace so far. -/
structure St where
  g : Nat
  w : Nat
  d : Nat
  tr : List MutCall
deriving Repr

/-- Record a mutating call. -/
def emit (c : MutCall) (st : St) : St :=
  { st with tr := st.tr ++ [c] }

/-- The module parameters the replacement core reads. -/
structure Params where
  replace_batch_size : Int
  lc_check : Bool
  replace_instances : List String
deriving Repr

/-- Function `elb_dreg` (lines 310-361) in the trace model: re-read the group; a
no-op unless the group is ELB-health-checked with a load balancer or
target group attached; otherwise deregister the instance from every
classic load balancer that lists it and from every attached target group,
then wait for the combined in-service count to drain, failing the module
on timeout. -/
def elb_dregRun (env : Env) (inst : String) (st : St) :
    Except String Unit × St :=
  let asg := env.asgs st.g
  let st1 : St := { st with g := st.g + 1 }
  if ¬ ((asg.loadBalancerNames ≠ [] ∨ asg.targetGroupARNs ≠ []) ∧
        asg.healthCheckType = "ELB") then
    (.ok (), st1)
  else
    let listed := asg.loadBalancerNames.filter (fun lb => lb ∈ env.lbsListing st1.d)
    let deregs := listed.map (fun lb => MutCall.deregLB lb inst) ++
        asg.targetGroupARNs.map (fun tg => MutCall.deregTG tg inst)
    let st2 : St := { st1 with d := st1.d + 1, w := st1.w + 1,
                               tr := st1.tr ++ deregs }
    if env.waits st1.w then (.ok (), st2)
    else (.error "Waited too long for instance to deregister.", st2)

/-- The per-instance loop at the end of `terminate_batch` (lines 885-889):
deregister, then terminate with the batch's decrement flag; a fatal
deregistration timeout aborts before the terminate call. -/
def termLoop (env : Env) (decrement : Bool) :
    List InstRec → St → Except String Unit × St
  | [], st => (.ok (), st)
  | i :: rest, st =>
      match elb_dregRun env i.instId st with
      | (.error e, st) => (.error e, st)
      | (.ok _, st) =>
          termLoop env decrement rest (emit (.terminate i.instId decrement) st)

/-- Function `terminate_batch` (lines 840-894) in the trace model.  Returns
`(break_loop, desired_size, instances_to_terminate)` as the source does.
The batch size read here is the configured module parameter (line 842),
not the value `replace` may have shrunk locally. -/
def terminate_batchRun (p : Params) (env : Env) (min_size desired_capacity : Int)
    (replace_instances initial_instances : List InstRec) (leftovers : Bool)
    (st : St) : Except String (Bool × Int × List InstRec) × St :=
  let batch_size := p.replace_batch_size
  let asg := env.asgs st.g
  let st1 : St := { st with g := st.g + 1 }
  let newI := (get_instances_by_lc asg p.lc_check initial_instances).1
  let oldI := (get_instances_by_lc asg p.lc_check initial_instances).2
  let num_new_inst_needed : Int := desired_capacity - newI.length
  match list_purgeable_instances asg p.lc_check replace_instances initial_instances with
  | .error e => (.error e, st1)
  | .ok purgeable =>
      let zero := num_new_inst_needed = 0
      let st2 : St :=
        if zero ∧ asg.minSize ≠ min_size then
          emit (.updateSize asg.maxSize min_size asg.desiredCapacity) st1
        else st1
      let shrink := num_new_inst_needed < batch_size ∧ num_new_inst_needed ≠ 0
      let decrement_capacity : Bool :=
        if shrink then false else if zero then !leftovers else false
      let break_loop : Bool := if shrink then false else if zero then true else false
      let instances_to_terminate :=
        if shrink then
          pySliceTo (if zero then oldI.map InstRec.full else purgeable)
            num_new_inst_needed
        else if zero then oldI.map InstRec.full else purgeable
      let desired_size := if zero then min_size else asg.minSize
      match termLoop env decrement_capacity instances_to_terminate st2 with
      | (.ok _, st3) => (.ok (break_loop, desired_size, instances_to_terminate), st3)
      | (.error e, st3) => (.error e, st3)

/-- Lines 722-726 of `replace`: the working instance list is the group's
member records, or id-only dicts built from `replace_instances` when that
parameter is non-empty. -/
def initialInstances (p : Params) (asg : Asg) : List InstRec :=
  if p.replace_instances ≠ [] then p.replace_instances.map InstRec.idOnly
  else asg.instances.map InstRec.full

/-- The batch size `replace` uses after line 747: shrunk to the number of
new instances needed, but only under the launch-configuration policy. -/
def effectiveBatch (p : Params) (needed : Int) : Int :=
  if p.lc_check ∧ needed < p.replace_batch_size then needed
  else p.replace_batch_size

/-- The body of `replace`'s main loop (lines 773-785): terminate a chunk,
then the three polling waits, looping until the chunks are exhausted or a
batch reports the early break. -/
def mainLoop (p : Params) (env : Env) (min_size desired_capacity : Int)
    (initial : List InstRec) :
    List (List InstRec) → St → Except String Unit × St
  | [], st => (.ok (), st)
  | chunk :: rest, st =>
      match terminate_batchRun p env min_size desired_capacity chunk initial false st with
      | (.error e, st) => (.error e, st)
      | (.ok (break_early, _desired_size, _term), st) =>
          if ¬ env.waits st.w then
            (.error "Waited too long for old instances to terminate.",
             { st with w := st.w + 1 })
          else if ¬ env.waits (st.w + 1) then
            (.error "Waited too long for new instances to become viable.",
             { st with w := st.w + 2 })
          else if ¬ env.waits (st.w + 2) then
            (.error "Waited too long for ELB instances to be healthy.",
             { st with w := st.w + 3 })
          else if break_early then (.ok (), { st with w := st.w + 3 })
          else mainLoop p env min_size desired_capacity initial rest
            { st with w := st.w + 3 }

/-- Function `replace` (lines 712-791) in the trace model: initial snapshot and
wait, classification, the launch-configuration shortcut, the empty-old
early return, the temporary scale-up, the main loop, and the restore of
the original sizes. -/
def replaceRun (p : Params) (env : Env) : Except String (Bool × Asg) × St :=
  let asg0 := env.asgs 0
  if ¬ env.waits 0 then
    (.error "Waited too long for new instances to become viable.", ⟨1, 1, 0, []⟩)
  else
    let instances := initialInstances p asg0
    let min_size := asg0.minSize
    let max_size := asg0.maxSize
    let desired_capacity := asg0.desiredCapacity
    let newI := (get_instances_by_lc asg0 p.lc_check instances).1
    let oldI := (get_instances_by_lc asg0 p.lc_check instances).2
    let needed : Int := desired_capacity - newI.length
    if p.lc_check ∧ needed = 0 ∧ oldI ≠ [] then
      match terminate_batchRun p env min_size desired_capacity
          (oldI.map InstRec.full) instances true ⟨1, 1, 0, []⟩ with
      | (.error e, st) => (.error e, st)
      | (.ok _, st) => (.ok (true, env.asgs st.g), { st with g := st.g + 1 })
    else
      let batch_size := effectiveBatch p needed
      if oldI = [] then (.ok (false, asg0), ⟨1, 1, 0, []⟩)
      else
        let scaleUp : MutCall := .updateSize (max_size + batch_size)
          (min_size + batch_size) (desired_capacity + batch_size)
        if ¬ env.waits 1 then
          (.error "Waited too long for new instances to become viable.",
           ⟨2, 2, 0, [scaleUp]⟩)
        else if ¬ env.waits 2 then
          (.error "Waited too long for ELB instances to be healthy.",
           ⟨2, 3, 0, [scaleUp]⟩)
        else
          let asgB := env.asgs 2
          let instances2 := initialInstances p asgB
          match mainLoop p env min_size desired_capacity instances2
              (get_chunks instances2 batch_size) ⟨3, 3, 0, [scaleUp]⟩ with
          | (.error e, st) => (.error e, st)
          | (.ok _, st) =>
              (.ok (true, env.asgs (st.g + 1)),
               { st with g := st.g + 2,
                         tr := st.tr ++ [.updateSize max_size min_size desired_capacity] })

/-! ### Trace structure lemmas -/

/-- Event shapes a deregistration can add. -/
def isDereg : MutCall → Prop
  | .deregLB _ _ => True
  | .deregTG _ _ => True
  | _ => False

theorem elb_dregRun_tr (env : Env) (inst : String) (st : St) :
    ∃ l, ((elb_dregRun env inst st).2).tr = st.tr ++ l ∧ ∀ e ∈ l, isDereg e := by
  dsimp only [elb_dregRun]
  split
  · exact ⟨[], by simp⟩
  · split
    all_goals
      refine ⟨_, rfl, ?_⟩
      intro e he
      rcases List.mem_append.mp he with h | h
      · rcases List.mem_map.mp h with ⟨a, -, rfl⟩
        trivial
      · rcases List.mem_map.mp h with ⟨a, -, rfl⟩
        trivial

theorem elb_dregRun_g (env : Env) (inst : String) (st : St) :
    ((elb_dregRun env inst st).2).g = st.g + 1 := by
  dsimp only [elb_dregRun]
  split
  · rfl
  · split <;> rfl

theorem termLoop_tr (env : Env) (dec : Bool) (l : List InstRec) (st : St) :
    ∃ m, ((termLoop env dec l st).2).tr = st.tr ++ m ∧
      ∀ e ∈ m, isDereg e ∨ ∃ i, e = MutCall.terminate i dec := by
  induction l generalizing st with
  | nil => exact ⟨[], by simp [termLoop]⟩
  | cons i rest ih =>
      unfold termLoop
      rcases hd : elb_dregRun env i.instId st with ⟨res, st1⟩
      obtain ⟨l1, hl1, hshape1⟩ := elb_dregRun_tr env i.instId st
      rw [hd] at hl1
      simp only at hl1
      cases res with
      | error e =>
          exact ⟨l1, hl1, fun e he => Or.inl (hshape1 e he)⟩
      | ok u =>
          obtain ⟨m2, hm2, hshape2⟩ :=
            ih { st1 with tr := st1.tr ++ [MutCall.terminate i.instId dec] }
          refine ⟨l1 ++ MutCall.terminate i.instId dec :: m2, ?_, ?_⟩
          · simp only [emit]
            rw [hm2]
            simp only [hl1]
            simp
          · intro e he
            rcases List.mem_append.mp he with h | h
            · exact Or.inl (hshape1 e h)
            · rcases List.mem_cons.mp h with h | h
              · exact Or.inr ⟨i.instId, h⟩
              · exact hshape2 e h

theorem termLoop_g (env : Env) (dec : Bool) (l : List InstRec) (st : St) :
    st.g ≤ ((termLoop env dec l st).2).g := by
  induction l generalizing st with
  | nil => simp [termLoop]
  | cons i rest ih =>
      unfold termLoop
      rcases hd : elb_dregRun env i.instId st with ⟨res, st1⟩
      have hg : st1.g = st.g + 1 := by
        have := elb_dregRun_g env i.instId st
        rw [hd] at this
        exact this
      cases res with
      | error e => simp [hg]
      | ok u =>
          have h2 := ih { st1 with tr := st1.tr ++ [MutCall.terminate i.instId dec] }
          simp only [emit]
          simp only at h2 ⊢
          omega

/-- Both arms of `terminate_batchRun`'s trailing match return the state
the termination loop produced. -/
theorem tbMatch_snd (x : Except String Unit × St) (f : Bool × Int × List InstRec) :
    (match x with
     | (.ok _, st3) => ((Except.ok f : Except String (Bool × Int × List InstRec)), st3)
     | (.error e, st3) => (.error e, st3)).2 = x.2 := by
  rcases x with ⟨res, s⟩
  cases res <;> rfl

theorem terminate_batchRun_tr (p : Params) (env : Env) (mn dc : Int)
    (repl init : List InstRec) (lo : Bool) (st : St) :
    ∃ m, ((terminate_batchRun p env mn dc repl init lo st).2).tr = st.tr ++ m ∧
      ∀ e ∈ m, isDereg e ∨ (∃ i d, e = MutCall.terminate i d) ∨
        e = MutCall.updateSize (env.asgs st.g).maxSize mn
              (env.asgs st.g).desiredCapacity := by
  have key : ∀ (dec : Bool) (l : List InstRec) (st2 : St),
      (st2.tr = st.tr ∨ st2.tr = st.tr ++
        [MutCall.updateSize (env.asgs st.g).maxSize mn (env.asgs st.g).desiredCapacity]) →
      ∃ m, ((termLoop env dec l st2).2).tr = st.tr ++ m ∧
        ∀ e ∈ m, isDereg e ∨ (∃ i d, e = MutCall.terminate i d) ∨
          e = MutCall.updateSize (env.asgs st.g).maxSize mn
                (env.asgs st.g).desiredCapacity := by
    intro dec l st2 h2
    obtain ⟨m, hm, hsh⟩ := termLoop_tr env dec l st2
    rcases h2 with h2 | h2
    · refine ⟨m, by rw [hm, h2], ?_⟩
      intro e he
      rcases hsh e he with h | ⟨i, h⟩
      · exact Or.inl h
      · exact Or.inr (Or.inl ⟨i, dec, h⟩)
    · refine ⟨MutCall.updateSize (env.asgs st.g).maxSize mn
        (env.asgs st.g).desiredCapacity :: m, by rw [hm, h2]; simp, ?_⟩
      intro e he
      rcases List.mem_cons.mp he with h | h
      · exact Or.inr (Or.inr h)
      · rcases hsh e h with h1 | ⟨i, h1⟩
        · exact Or.inl h1
        · exact Or.inr (Or.inl ⟨i, dec, h1⟩)
  dsimp only [terminate_batchRun]
  split
  · exact ⟨[], by simp, by simp⟩
  · rw [tbMatch_snd]
    refine key _ _ _ ?_
    split
    · exact Or.inr (by simp [emit])
    · exact Or.inl rfl

theorem terminate_batchRun_g (p : Params) (env : Env) (mn dc : Int)
    (repl init : List InstRec) (lo : Bool) (st : St) :
    st.g ≤ ((terminate_batchRun p env mn dc repl init lo st).2).g := by
  have key : ∀ (dec : Bool) (l : List InstRec) (st2 : St), st2.g = st.g + 1 →
      st.g ≤ ((termLoop env dec l st2).2).g := by
    intro dec l st2 h2
    have := termLoop_g env dec l st2
    omega
  dsimp only [terminate_batchRun]
  split
  · simp
  · rw [tbMatch_snd]
    refine key _ _ _ ?_
    split
    · simp [emit]
    · rfl

theorem mainLoop_tr (p : Params) (env : Env) (mn dc : Int) (initial : List InstRec)
    (M : Int) (chunks : List (List InstRec)) (st : St)
    (hM : ∀ k, st.g ≤ k → (env.asgs k).maxSize = M) :
    ∃ m, ((mainLoop p env mn dc initial chunks st).2).tr = st.tr ++ m ∧
      ∀ e ∈ m, isDereg e ∨ (∃ i d, e = MutCall.terminate i d) ∨
        ∃ d0, e = MutCall.updateSize M mn d0 := by
  induction chunks generalizing st with
  | nil => exact ⟨[], by simp [mainLoop], by simp⟩
  | cons c rest ih =>
      unfold mainLoop
      rcases htb : terminate_batchRun p env mn dc c initial false st with ⟨res, st1⟩
      obtain ⟨m1, hm1, hsh1⟩ := terminate_batchRun_tr p env mn dc c initial false st
      have hg1 := terminate_batchRun_g p env mn dc c initial false st
      rw [htb] at hm1 hg1
      simp only at hm1 hg1
      have hsh1M : ∀ e ∈ m1, isDereg e ∨ (∃ i d, e = MutCall.terminate i d) ∨
          ∃ d0, e = MutCall.updateSize M mn d0 := by
        intro e he
        rcases hsh1 e he with h | h | h
        · exact Or.inl h
        · exact Or.inr (Or.inl h)
        · exact Or.inr (Or.inr ⟨_, by rw [h, hM st.g le_rfl]⟩)
      cases res with
      | error e =>
          refine ⟨m1, ?_, hsh1M⟩
          simpa using hm1
      | ok t =>
          rcases t with ⟨brk, ds, term⟩
          dsimp only
          split
          · exact ⟨m1, hm1, hsh1M⟩
          · split
            · exact ⟨m1, hm1, hsh1M⟩
            · split
              · exact ⟨m1, hm1, hsh1M⟩
              · split
                · exact ⟨m1, hm1, hsh1M⟩
                · obtain ⟨m2, hm2, hsh2⟩ := ih { st1 with w := st1.w + 3 }
                    (fun k hk => hM k (by simp only at hk; omega))
                  refine ⟨m1 ++ m2, ?_, ?_⟩
                  · rw [hm2]
                    simp only [hm1]
                    simp
                  · intro e he
                    rcases List.mem_append.mp he with h | h
                    · exact hsh1M e h
                    · exact hsh2 e h

theorem mainLoop_trMono (p : Params) (env : Env) (mn dc : Int)
    (initial : List InstRec) (chunks : List (List InstRec)) (st : St) :
    ∃ m, ((mainLoop p env mn dc initial chunks st).2).tr = st.tr ++ m := by
  induction chunks generalizing st with
  | nil => exact ⟨[], by simp [mainLoop]⟩
  | cons c rest ih =>
      unfold mainLoop
      rcases htb : terminate_batchRun p env mn dc c initial false st with ⟨res, st1⟩
      obtain ⟨m1, hm1, -⟩ := terminate_batchRun_tr p env mn dc c initial false st
      rw [htb] at hm1
      simp only at hm1
      cases res with
      | error e =>
          refine ⟨m1, ?_⟩
          simpa using hm1
      | ok t =>
          rcases t with ⟨brk, ds, term⟩
          dsimp only
          split
          · exact ⟨m1, hm1⟩
          · split
            · exact ⟨m1, hm1⟩
            · split
              · exact ⟨m1, hm1⟩
              · split
                · exact ⟨m1, hm1⟩
                · obtain ⟨m2, hm2⟩ := ih { st1 with w := st1.w + 3 }
                  refine ⟨m1 ++ m2, ?_⟩
                  rw [hm2]
                  simp only [hm1]
                  simp

/-- The first mutating call of a `replace` run that passes the initial
wait and enters the main path is the temporary scale-up by the effective
batch size. -/
theorem replaceRun_head (p : Params) (env : Env) (asg0 : Asg)
    (newI oldI : List Instance) (needed b : Int)
    (h0 : asg0 = env.asgs 0)
    (hnew : newI = (get_instances_by_lc asg0 p.lc_check (initialInstances p asg0)).1)
    (holdI : oldI = (get_instances_by_lc asg0 p.lc_check (initialInstances p asg0)).2)
    (hneed : needed = asg0.desiredCapacity - newI.length)
    (hb : b = effectiveBatch p needed)
    (hw0 : env.waits 0 = true)
    (hshort : ¬ (p.lc_check ∧ needed = 0)) (hold : oldI ≠ []) :
    ((replaceRun p env).2).tr.head? =
      some (.updateSize (asg0.maxSize + b) (asg0.minSize + b)
        (asg0.desiredCapacity + b)) := by
  subst h0 hnew holdI hneed hb
  dsimp only [replaceRun]
  rw [if_neg (by simp [hw0])]
  rw [if_neg (by tauto)]
  rw [if_neg hold]
  split
  · rfl
  · split
    · rfl
    · rcases hml : mainLoop p env (env.asgs 0).minSize (env.asgs 0).desiredCapacity
          (initialInstances p (env.asgs 2))
          (get_chunks (initialInstances p (env.asgs 2))
            (effectiveBatch p ((env.asgs 0).desiredCapacity -
              ((get_instances_by_lc (env.asgs 0) p.lc_check
                (initialInstances p (env.asgs 0))).1.length : Int))))
          ⟨3, 3, 0, [.updateSize ((env.asgs 0).maxSize + _) ((env.asgs 0).minSize + _)
            ((env.asgs 0).desiredCapacity + _)]⟩ with ⟨res, st1⟩
      obtain ⟨m1, hm1⟩ := mainLoop_trMono p env _ _ _ _ _
      rw [hml] at hm1
      simp only at hm1
      cases res with
      | error e =>
          dsimp only
          rw [hm1]
          simp
      | ok u =>
          dsimp only
          rw [hm1]
          simp

/-- A `replace` run through the main path that returns without a fatal
error ends its mutation trace with the restore of the original sizes. -/
theorem replaceRun_last (p : Params) (env : Env) (asg0 : Asg)
    (newI oldI : List Instance) (needed : Int)
    (h0 : asg0 = env.asgs 0)
    (hnew : newI = (get_instances_by_lc asg0 p.lc_check (initialInstances p asg0)).1)
    (holdI : oldI = (get_instances_by_lc asg0 p.lc_check (initialInstances p asg0)).2)
    (hneed : needed = asg0.desiredCapacity - newI.length)
    (hw0 : env.waits 0 = true)
    (hshort : ¬ (p.lc_check ∧ needed = 0)) (hold : oldI ≠ [])
    (r : Bool × Asg) (hok : (replaceRun p env).1 = .ok r) :
    ((replaceRun p env).2).tr.getLast? =
      some (.updateSize asg0.maxSize asg0.minSize asg0.desiredCapacity) := by
  subst h0 hnew holdI hneed
  dsimp only [replaceRun] at hok ⊢
  rw [if_neg (by simp [hw0])] at hok ⊢
  rw [if_neg (by tauto)] at hok ⊢
  rw [if_neg hold] at hok ⊢
  by_cases h1 : env.waits 1 = true
  swap
  · rw [if_pos (by simpa using h1)] at hok
    simp at hok
  rw [if_neg (by simp [h1])] at hok ⊢
  by_cases h2 : env.waits 2 = true
  swap
  · rw [if_pos (by simpa using h2)] at hok
    simp at hok
  rw [if_neg (by simp [h2])] at hok ⊢
  rcases hml : mainLoop p env (env.asgs 0).minSize (env.asgs 0).desiredCapacity
      (initialInstances p (env.asgs 2))
      (get_chunks (initialInstances p (env.asgs 2))
        (effectiveBatch p ((env.asgs 0).desiredCapacity -
          ((get_instances_by_lc (env.asgs 0) p.lc_check
            (initialInstances p (env.asgs 0))).1.length : Int))))
      ⟨3, 3, 0, [.updateSize ((env.asgs 0).maxSize + _) ((env.asgs 0).minSize + _)
        ((env.asgs 0).desiredCapacity + _)]⟩ with ⟨res, st1⟩
  rw [hml] at hok
  cases res with
  | error e => simp at hok
  | ok u =>
      dsimp only
      exact List.getLast?_concat _

/-- After a fatal error in a `replace` run through the main path, the trace
never contains the restore submission of the original sizes, provided the
effective batch size is nonzero and the control plane reflects the
scaled-up maximum in every snapshot the loop reads. -/
theorem replaceRun_noRestore (p : Params) (env : Env) (asg0 : Asg)
    (newI oldI : List Instance) (needed b : Int)
    (h0 : asg0 = env.asgs 0)
    (hnew : newI = (get_instances_by_lc asg0 p.lc_check (initialInstances p asg0)).1)
    (holdI : oldI = (get_instances_by_lc asg0 p.lc_check (initialInstances p asg0)).2)
    (hneed : needed = asg0.desiredCapacity - newI.length)
    (hb : b = effectiveBatch p needed)
    (hw0 : env.waits 0 = true)
    (hshort : ¬ (p.lc_check ∧ needed = 0)) (hold : oldI ≠ [])
    (hbne : b ≠ 0)
    (hM : ∀ k, 3 ≤ k → (env.asgs k).maxSize = asg0.maxSize + b)
    (msg : String) (herr : (replaceRun p env).1 = .error msg) :
    MutCall.updateSize asg0.maxSize asg0.minSize asg0.desiredCapacity ∉
      ((replaceRun p env).2).tr := by
  subst h0 hnew holdI hneed hb
  dsimp only [replaceRun] at herr ⊢
  rw [if_neg (by simp [hw0])] at herr ⊢
  rw [if_neg (by tauto)] at herr ⊢
  rw [if_neg hold] at herr ⊢
  by_cases h1 : env.waits 1 = true
  swap
  · rw [if_pos (by simpa using h1)]
    intro hmem
    simp only [List.mem_singleton, MutCall.updateSize.injEq] at hmem
    omega
  rw [if_neg (by simp [h1])] at herr ⊢
  by_cases h2 : env.waits 2 = true
  swap
  · rw [if_pos (by simpa using h2)]
    intro hmem
    simp only [List.mem_singleton, MutCall.updateSize.injEq] at hmem
    omega
  rw [if_neg (by simp [h2])] at herr ⊢
  set nn : Int := (env.asgs 0).desiredCapacity -
    ((get_instances_by_lc (env.asgs 0) p.lc_check
      (initialInstances p (env.asgs 0))).1.length : Int) with hnn
  set bb : Int := effectiveBatch p nn with hbb
  rcases hml : mainLoop p env (env.asgs 0).minSize (env.asgs 0).desiredCapacity
      (initialInstances p (env.asgs 2))
      (get_chunks (initialInstances p (env.asgs 2)) bb)
      ⟨3, 3, 0, [.updateSize ((env.asgs 0).maxSize + bb) ((env.asgs 0).minSize + bb)
        ((env.asgs 0).desiredCapacity + bb)]⟩ with ⟨res, st1⟩
  rw [hml] at herr
  obtain ⟨m1, hm1, hsh1⟩ := mainLoop_tr p env (env.asgs 0).minSize
    (env.asgs 0).desiredCapacity (initialInstances p (env.asgs 2))
    ((env.asgs 0).maxSize + bb)
    (get_chunks (initialInstances p (env.asgs 2)) bb)
    ⟨3, 3, 0, [.updateSize ((env.asgs 0).maxSize + bb) ((env.asgs 0).minSize + bb)
      ((env.asgs 0).desiredCapacity + bb)]⟩
    (fun k hk => hM k hk)
  rw [hml] at hm1
  simp only at hm1
  cases res with
  | error e =>
      dsimp only
      rw [hm1]
      intro hmem
      rcases List.mem_cons.mp hmem with h | h
      · simp only [MutCall.updateSize.injEq] at h
        omega
      · rcases hsh1 _ h with hds | ⟨i, d, hte⟩ | ⟨d0, hup⟩
        · simp [isDereg] at hds
        · simp at hte
        · simp only [MutCall.updateSize.injEq] at hup
          omega
  | ok u => simp at herr

/-! ### Concrete fixtures for counterexamples and witnesses -/

/-- A member running the outdated launch configuration. -/
def instOld : Instance := ⟨"i-1", "InService", "Healthy", "lc-old"⟩

/-- A member running the current launch configuration. -/
def instNew : Instance := ⟨"i-2", "InService", "Healthy", "lc-new"⟩

/-- Group for the `update_size` counterexample. -/
def asgFix : Asg := ⟨2, 5, 3, "lc-new", [], [], "EC2", []⟩

/-- Group with two classic load balancers and one viable member, for the
intersection counterexample. -/
def asgTwoLB : Asg :=
  ⟨1, 1, 1, "lc-new", ["lb1", "lb2"], [], "ELB",
   [⟨"i-1", "InService", "Healthy", "lc-new"⟩]⟩

/-- Load-balancer responses where lb1 reports the member out of service and
lb2 reports it in service. -/
def respTwoLB : String → LBResp := fun lb =>
  if lb = "lb1" then .ok [("i-1", "OutOfService")] else .ok [("i-1", "InService")]

/-- Group holding only `instOld`, for the classifier counterexample. -/
def asgOneOld : Asg := ⟨1, 1, 1, "lc-new", [], [], "EC2", [instOld]⟩

/-- Parameters with batch size 2 under the identity policy. -/
def pIdent : Params := ⟨2, false, []⟩

/-- Environment that always returns `asgOneOld` and succeeds every wait. -/
def envOneOld : Env := ⟨fun _ => asgOneOld, fun _ => true, fun _ => []⟩

/-! ### Claims -/

/-- C1, counterexample: `update_size` performs no clamp.  Called with
`min_size = 2` and a desired capacity of `1`, the submitted record has
`DesiredCapacity = 1 < MinSize = 2`; the claim requires the desired
capacity to be raised to the minimum on this path. -/
theorem claim_C1_counterexample :
    (update_size asgFix 5 2 1).minSize = 2 ∧
    (update_size asgFix 5 2 1).maxSize = 5 ∧
    (update_size asgFix 5 2 1).desiredCapacity = 1 ∧
    ¬ ((update_size asgFix 5 2 1).minSize ≤ (update_size asgFix 5 2 1).desiredCapacity) := by
  decide

/-- C1, amended: the clamp exists only on the existing-group update path of
`create_autoscaling_group` (where it does enforce
`min ≤ desired ≤ max` whenever `min ≤ max`); `update_size` submits its
arguments unchanged, and the orchestrator's scale-up submission satisfies
the invariant whenever the session's starting snapshot does. -/
theorem claim_C1 :
    (∀ mn mx dc : Int, mn ≤ mx →
      mn ≤ clampDesired mn mx dc ∧ clampDesired mn mx dc ≤ mx) ∧
    (∀ (asg : Asg) (mx mn dc : Int),
      (update_size asg mx mn dc).maxSize = mx ∧
      (update_size asg mx mn dc).minSize = mn ∧
      (update_size asg mx mn dc).desiredCapacity = dc) ∧
    (∀ (p : Params) (env : Env) (asg0 : Asg) (newI oldI : List Instance)
        (needed b : Int),
      asg0 = env.asgs 0 →
      newI = (get_instances_by_lc asg0 p.lc_check (initialInstances p asg0)).1 →
      oldI = (get_instances_by_lc asg0 p.lc_check (initialInstances p asg0)).2 →
      needed = asg0.desiredCapacity - newI.length →
      b = effectiveBatch p needed →
      env.waits 0 = true →
      ¬ (p.lc_check ∧ needed = 0) → oldI ≠ [] →
      asg0.minSize ≤ asg0.desiredCapacity → asg0.desiredCapacity ≤ asg0.maxSize →
      ((replaceRun p env).2).tr.head? =
        some (.updateSize (asg0.maxSize + b) (asg0.minSize + b)
          (asg0.desiredCapacity + b)) ∧
      asg0.minSize + b ≤ asg0.desiredCapacity + b ∧
      asg0.desiredCapacity + b ≤ asg0.maxSize + b) := by
  refine ⟨?_, ?_, ?_⟩
  · intro mn mx dc hle
    unfold clampDesired
    dsimp only
    split <;> split <;> omega
  · intro asg mx mn dc
    exact ⟨rfl, rfl, rfl⟩
  · intro p env asg0 newI oldI needed b h0 hnew holdI hneed hb hw0 hshort hold h1 h2
    refine ⟨replaceRun_head p env asg0 newI oldI needed b h0 hnew holdI hneed hb
      hw0 hshort hold, by omega, by omega⟩

/-- C1 witness: the third part of the theorem applied to a one-member
group whose single instance runs the outdated configuration. -/
theorem claim_C1_witness :
    ((⟨1, 1, 1, "lc-new", [], [], "EC2", [instOld]⟩ : Asg) =
        (⟨fun _ => ⟨1, 1, 1, "lc-new", [], [], "EC2", [instOld]⟩,
          fun _ => true, fun _ => []⟩ : Env).asgs 0 ∧
      (⟨fun _ => ⟨1, 1, 1, "lc-new", [], [], "EC2", [instOld]⟩,
        fun _ => true, fun _ => []⟩ : Env).waits 0 = true) ∧
    ((replaceRun ⟨1, true, []⟩
        ⟨fun _ => ⟨1, 1, 1, "lc-new", [], [], "EC2", [instOld]⟩,
         fun _ => true, fun _ => []⟩).2).tr.head? =
      some (.updateSize 2 2 2) := by
  refine ⟨⟨rfl, rfl⟩, ?_⟩
  have h := (claim_C1.2.2 ⟨1, true, []⟩
    ⟨fun _ => ⟨1, 1, 1, "lc-new", [], [], "EC2", [instOld]⟩,
     fun _ => true, fun _ => []⟩
    ⟨1, 1, 1, "lc-new", [], [], "EC2", [instOld]⟩ [] [instOld] 1 1
    rfl (by decide) (by decide) (by decide) (by decide) rfl
    (by decide) (by decide) (by decide) (by decide)).1
  simpa using h

/-- C2, evaluation at the failing input: with two attached classic load
balancers, where lb1 reports the only viable member `OutOfService` (healthy
set `∅`) and lb2 reports it `InService`, the Aggregator returns a count of
1 even though the intersection of the per-balancer healthy sets is empty,
so the count exceeds the smallest per-resource healthy count (0).  The
`if healthy_instances:` truthiness test drops an empty intermediate
intersection instead of keeping it. -/
theorem claim_C2_bug :
    elb_healthy asgTwoLB none respTwoLB (fun _ => []) = .count 1 ∧
    lbHealthySet [("i-1", "OutOfService")] = ∅ ∧
    (lbHealthySet [("i-1", "OutOfService")] ∩
      lbHealthySet [("i-1", "InService")]).card = 0 := by
  refine ⟨by decide, by decide, by decide⟩

/-- C3, counterexample: under the identity policy the classifier compares
whole member records with Python dict equality, not instance ids.  The
snapshot holds the id-only record for `i-1` (as built from
`replace_instances`); the group's current full member record with that very
id is classified "new", while the claim says any member whose id is in the
snapshot is "old". -/
theorem claim_C3_counterexample :
    get_instances_by_lc asgOneOld false [InstRec.idOnly "i-1"] = ([instOld], []) ∧
    instOld.instanceId ∈ ([InstRec.idOnly "i-1"].map InstRec.instId) := by
  decide

/-- C3, amended: under the identity policy a current member is "new" iff
its full member record is not an element of the initial snapshot list (dict
equality, not id comparison); the two lists still form a disjoint cover of
the group's current members. -/
theorem claim_C3 (asg : Asg) (init : List InstRec) :
    (∀ i, i ∈ (get_instances_by_lc asg false init).1 ↔
      i ∈ asg.instances ∧ InstRec.full i ∉ init) ∧
    (∀ i, i ∈ (get_instances_by_lc asg false init).2 ↔
      i ∈ asg.instances ∧ InstRec.full i ∈ init) ∧
    (∀ i, ¬ (i ∈ (get_instances_by_lc asg false init).1 ∧
      i ∈ (get_instances_by_lc asg false init).2)) := by
  unfold get_instances_by_lc
  simp only [if_neg (Bool.false_ne_true), List.partition_eq_filter_filter]
  refine ⟨?_, ?_, ?_⟩
  · intro i
    simp
  · intro i
    simp
  · intro i
    simp only [List.mem_filter]
    rintro ⟨⟨-, h1⟩, ⟨-, h2⟩⟩
    simp at h1 h2
    exact h1 h2

/-- C3 witness: the amended characterization applied to the one-member
group and the id-only snapshot. -/
theorem claim_C3_witness :
    instOld ∈ (get_instances_by_lc asgOneOld false [InstRec.idOnly "i-1"]).1 ↔
      instOld ∈ asgOneOld.instances ∧
        InstRec.full instOld ∉ [InstRec.idOnly "i-1"] :=
  (claim_C3 asgOneOld [InstRec.idOnly "i-1"]).1 instOld

/-- C10: the missing comma joins the two attribute names into one string,
so neither `vpc_zone_identifier` nor `termination_policies` is in the
updatable-attribute list, and the update compare loop's result is entirely
independent of those two module parameters: a run differing from the
existing group only there reports `changed = false` and submits nothing
for those fields. -/
theorem claim_C10 :
    ("vpc_zone_identifier" ∉ ANSIBLE_ASG_UPDATABLE_ATTRIBUTES ∧
     "termination_policies" ∉ ANSIBLE_ASG_UPDATABLE_ATTRIBUTES ∧
     "vpc_zone_identifier" ++ "termination_policies" ∈ ANSIBLE_ASG_UPDATABLE_ATTRIBUTES) ∧
    (∀ (p : UpdateParams) (asgAttr : String → AttrVal) (vz tp : Option AttrVal),
      update_changed
        { p with vpc_zone_identifier := vz, termination_policies := tp } asgAttr =
        update_changed p asgAttr) := by
  refine ⟨by decide, ?_⟩
  intro p asgAttr vz tp
  rfl

/-- C10 witness: supplying differing `vpc_zone_identifier` and
`termination_policies` parameters leaves the `changed` flag exactly where
it was with them absent. -/
theorem claim_C10_witness :
    update_changed
      { ({} : UpdateParams) with
          vpc_zone_identifier := some (.strList ["subnet-1"]),
          termination_policies := some (.strList ["OldestInstance"]) }
      (fun _ => AttrVal.str "zzz") =
    update_changed ({} : UpdateParams) (fun _ => AttrVal.str "zzz") :=
  claim_C10.2 {} (fun _ => AttrVal.str "zzz")
    (some (.strList ["subnet-1"])) (some (.strList ["OldestInstance"]))

theorem chunksAux_length_le (k : Nat) :
    ∀ (fuel : Nat) (l : List α), ∀ c ∈ chunksAux k fuel l, c.length ≤ k + 1 := by
  intro fuel
  induction fuel with
  | zero =>
      intro l c hc
      simp [chunksAux] at hc
  | succ n ih =>
      intro l c hc
      cases l with
      | nil => simp [chunksAux] at hc
      | cons a t =>
          rw [chunksAux] at hc
          rcases List.mem_cons.mp hc with h | h
          · subst h
            simp only [List.length_cons]
            have := List.length_take_le k t
            omega
          · exact ih (t.drop k) c h

theorem get_chunks_length_le (l : List α) (n : Int) :
    ∀ c ∈ get_chunks l n, c.length ≤ n.toNat := by
  intro c hc
  unfold get_chunks at hc
  split at hc
  · simp at hc
  · rename_i hn
    have h1 : 1 ≤ n.toNat := by omega
    have := chunksAux_length_le (n.toNat - 1) l.length l c hc
    omega

/-- C5, counterexample: under the identity policy (`lc_check = false`) the
batch-size shrink does not happen.  With one old member, a needed count of
1 and a configured batch size of 2, the scale-up submission bumps every
bound by 2 (the configured value), not by 1 (the needed count) as the
claim requires for either policy. -/
theorem claim_C5_counterexample :
    pIdent.lc_check = false ∧
    asgOneOld.desiredCapacity -
      ((get_instances_by_lc asgOneOld pIdent.lc_check
        (initialInstances pIdent asgOneOld)).1.length : Int) = 1 ∧
    (1 : Int) < pIdent.replace_batch_size ∧
    (get_instances_by_lc asgOneOld pIdent.lc_check
      (initialInstances pIdent asgOneOld)).2 ≠ [] ∧
    ((replaceRun pIdent envOneOld).2).tr.head? = some (.updateSize 3 3 3) ∧
    MutCall.updateSize 3 3 3 ≠ MutCall.updateSize 2 2 2 := by
  decide

/-- C5, amended: only under the launch-configuration policy
(`lc_check = true`) is the effective batch size shrunk: then, when
`0 < needed < batchSize`, the capacity bump uses exactly `needed` and
every chunk of the replacement loop has at most `needed` elements. -/
theorem claim_C5 (p : Params) (env : Env) (asg0 : Asg)
    (newI oldI : List Instance) (needed b : Int)
    (h0 : asg0 = env.asgs 0)
    (hnew : newI = (get_instances_by_lc asg0 p.lc_check (initialInstances p asg0)).1)
    (holdI : oldI = (get_instances_by_lc asg0 p.lc_check (initialInstances p asg0)).2)
    (hneed : needed = asg0.desiredCapacity - newI.length)
    (hb : b = effectiveBatch p needed)
    (hw0 : env.waits 0 = true)
    (hlc : p.lc_check = true)
    (hpos : 0 < needed) (hlt : needed < p.replace_batch_size)
    (hold : oldI ≠ []) :
    b = needed ∧
    ((replaceRun p env).2).tr.head? =
      some (.updateSize (asg0.maxSize + needed) (asg0.minSize + needed)
        (asg0.desiredCapacity + needed)) ∧
    (∀ (l : List InstRec), ∀ c ∈ get_chunks l needed, c.length ≤ needed.toNat) := by
  have hbn : b = needed := by
    rw [hb]
    unfold effectiveBatch
    rw [if_pos ⟨by simp [hlc], hlt⟩]
  refine ⟨hbn, ?_, ?_⟩
  · have := replaceRun_head p env asg0 newI oldI needed b h0 hnew holdI hneed hb
      hw0 (by intro h; omega) hold
    rwa [hbn] at this
  · intro l c hc
    exact get_chunks_length_le l needed c hc

/-- C5 witness: a group of two members, one old and one new, with
`needed = 1` under the configuration policy and a configured batch size
of 2. -/
theorem claim_C5_witness :
    ((⟨2, true, []⟩ : Params).lc_check = true ∧
      ((0 : Int) < 1 ∧ (1 : Int) < (⟨2, true, []⟩ : Params).replace_batch_size)) ∧
    ((replaceRun ⟨2, true, []⟩
        ⟨fun _ => ⟨2, 2, 2, "lc-new", [], [], "EC2", [instOld, instNew]⟩,
         fun _ => true, fun _ => []⟩).2).tr.head? =
      some (.updateSize 3 3 3) := by
  refine ⟨⟨rfl, by decide, by decide⟩, ?_⟩
  have h := (claim_C5 ⟨2, true, []⟩
    ⟨fun _ => ⟨2, 2, 2, "lc-new", [], [], "EC2", [instOld, instNew]⟩,
     fun _ => true, fun _ => []⟩
    ⟨2, 2, 2, "lc-new", [], [], "EC2", [instOld, instNew]⟩ [instNew] [instOld] 1 1
    rfl (by decide) (by decide) (by decide) (by decide) rfl rfl
    (by decide) (by decide) (by decide)).2.1
  simpa using h

/-- C6: when the classifier's old set is empty, `replace` performs no
mutating control-plane call at all and returns `changed = false` with the
group snapshot it first read. -/
theorem claim_C6 (p : Params) (env : Env) (asg0 : Asg)
    (h0 : asg0 = env.asgs 0)
    (hw0 : env.waits 0 = true)
    (hempty : (get_instances_by_lc asg0 p.lc_check (initialInstances p asg0)).2 = []) :
    (replaceRun p env).1 = .ok (false, asg0) ∧
    ((replaceRun p env).2).tr = [] := by
  subst h0
  dsimp only [replaceRun]
  rw [if_neg (by simp [hw0])]
  rw [if_neg (by simp [hempty])]
  rw [if_pos hempty]
  exact ⟨rfl, rfl⟩

/-- C6 witness: a one-member group whose single instance already runs the
current launch configuration. -/
theorem claim_C6_witness :
    (get_instances_by_lc (⟨1, 1, 1, "lc-new", [], [], "EC2", [instNew]⟩ : Asg)
      (⟨1, true, []⟩ : Params).lc_check
      (initialInstances ⟨1, true, []⟩ ⟨1, 1, 1, "lc-new", [], [], "EC2", [instNew]⟩)).2
        = [] ∧
    (replaceRun ⟨1, true, []⟩
      ⟨fun _ => ⟨1, 1, 1, "lc-new", [], [], "EC2", [instNew]⟩,
       fun _ => true, fun _ => []⟩).1 =
      .ok (false, ⟨1, 1, 1, "lc-new", [], [], "EC2", [instNew]⟩) ∧
    ((replaceRun ⟨1, true, []⟩
      ⟨fun _ => ⟨1, 1, 1, "lc-new", [], [], "EC2", [instNew]⟩,
       fun _ => true, fun _ => []⟩).2).tr = [] := by
  refine ⟨by decide, ?_⟩
  exact claim_C6 ⟨1, true, []⟩
    ⟨fun _ => ⟨1, 1, 1, "lc-new", [], [], "EC2", [instNew]⟩,
     fun _ => true, fun _ => []⟩
    ⟨1, 1, 1, "lc-new", [], [], "EC2", [instNew]⟩ rfl rfl (by decide)

/-- C4: in every `terminate_batch` invocation the
`ShouldDecrementDesiredCapacity` flag of every terminate call it issues is
`true` exactly when the freshly computed needed count
(`desiredCapacity - |new|`) is zero and the batch is not a leftover
pass. -/
theorem claim_C4 (p : Params) (env : Env) (mn dc : Int)
    (repl init : List InstRec) (lo : Bool) (st : St) (hst : st.tr = [])
    (i : String) (d : Bool)
    (hmem : MutCall.terminate i d ∈
      ((terminate_batchRun p env mn dc repl init lo st).2).tr) :
    d = true ↔
      (dc - ((get_instances_by_lc (env.asgs st.g) p.lc_check init).1.length : Int) = 0 ∧
       lo = false) := by
  have key : ∀ (dec : Bool) (l : List InstRec) (st2 : St),
      MutCall.terminate i d ∈ ((termLoop env dec l st2).2).tr →
      (st2.tr = st.tr ∨ st2.tr = st.tr ++
        [MutCall.updateSize (env.asgs st.g).maxSize mn (env.asgs st.g).desiredCapacity]) →
      d = dec := by
    intro dec l st2 hm h2
    obtain ⟨m, hmtr, hsh⟩ := termLoop_tr env dec l st2
    rw [hmtr] at hm
    rcases List.mem_append.mp hm with h | h
    · rcases h2 with h2 | h2 <;> rw [h2, hst] at h <;> simp at h
    · rcases hsh _ h with hd | ⟨i1, he⟩
      · simp [isDereg] at hd
      · rw [MutCall.terminate.injEq] at he
        exact he.2
  dsimp only [terminate_batchRun] at hmem
  rcases hpur : list_purgeable_instances (env.asgs st.g) p.lc_check repl init
    with e | purg
  · rw [hpur] at hmem
    dsimp only at hmem
    simp [hst] at hmem
  · rw [hpur] at hmem
    dsimp only at hmem
    rw [tbMatch_snd] at hmem
    have hd := key _ _ _ hmem
      (by split
          · exact Or.inr (by simp [emit])
          · exact Or.inl rfl)
    rw [hd]
    split
    · rename_i hshrink
      simp only [Bool.false_eq_true, false_iff]
      intro hc
      exact hshrink.2 hc.1
    · split
      · rename_i hns hz
        simp [hz]
      · rename_i hns hz
        simp only [Bool.false_eq_true, false_iff]
        intro hc
        exact hz hc.1

/-- Session-start snapshot for the C4/C7 witnesses: one old member,
original sizes (1, 1, 1). -/
def asgSession : Asg := ⟨1, 1, 1, "lc-new", [], [], "EC2", [instOld]⟩

/-- Mid-session snapshot: scaled-up sizes (2, 2, 2), the replacement
member present alongside the old one. -/
def asgScaled : Asg := ⟨2, 2, 2, "lc-new", [], [], "EC2", [instNew, instOld]⟩

/-- Environment whose snapshots reflect the scale-up from the fourth
`get_asg_by_name` call on, with every wait succeeding. -/
def envSession : Env :=
  ⟨fun k => if 3 ≤ k then asgScaled else asgSession, fun _ => true, fun _ => []⟩

/-- C4 witness: a batch with one old member and `needed = 1` issues its
terminate call with the decrement flag `false`. -/
theorem claim_C4_witness :
    (⟨0, 0, 0, []⟩ : St).tr = [] ∧
    MutCall.terminate "i-1" false ∈
      ((terminate_batchRun ⟨1, true, []⟩
        ⟨fun _ => asgSession, fun _ => true, fun _ => []⟩ 1 1
        [InstRec.full instOld] [InstRec.full instOld] false ⟨0, 0, 0, []⟩).2).tr ∧
    (false = true ↔
      ((1 : Int) - ((get_instances_by_lc
        ((⟨fun _ => asgSession, fun _ => true, fun _ => []⟩ : Env).asgs
          (⟨0, 0, 0, []⟩ : St).g) (⟨1, true, []⟩ : Params).lc_check
        [InstRec.full instOld]).1.length : Int) = 0 ∧ false = false)) := by
  refine ⟨rfl, by decide, ?_⟩
  exact claim_C4 ⟨1, true, []⟩ ⟨fun _ => asgSession, fun _ => true, fun _ => []⟩ 1 1
    [InstRec.full instOld] [InstRec.full instOld] false ⟨0, 0, 0, []⟩ rfl
    "i-1" false (by decide)

/-- C7: through the main path, a run that returns without a fatal error
ends its mutation trace with the restore of the original
`(minSize, maxSize, desiredCapacity)`; a run that ends in a fatal error
(any polling-wait timeout) never submits that restore, given a nonzero
effective batch size and snapshots that reflect the scaled-up maximum once
the loop begins. -/
theorem claim_C7 (p : Params) (env : Env) (asg0 : Asg)
    (newI oldI : List Instance) (needed b : Int)
    (h0 : asg0 = env.asgs 0)
    (hnew : newI = (get_instances_by_lc asg0 p.lc_check (initialInstances p asg0)).1)
    (holdI : oldI = (get_instances_by_lc asg0 p.lc_check (initialInstances p asg0)).2)
    (hneed : needed = asg0.desiredCapacity - newI.length)
    (hb : b = effectiveBatch p needed)
    (hw0 : env.waits 0 = true)
    (hshort : ¬ (p.lc_check ∧ needed = 0)) (hold : oldI ≠ [])
    (hbne : b ≠ 0)
    (hM : ∀ k, 3 ≤ k → (env.asgs k).maxSize = asg0.maxSize + b) :
    (∀ r, (replaceRun p env).1 = .ok r →
      ((replaceRun p env).2).tr.getLast? =
        some (.updateSize asg0.maxSize asg0.minSize asg0.desiredCapacity)) ∧
    (∀ msg, (replaceRun p env).1 = .error msg →
      MutCall.updateSize asg0.maxSize asg0.minSize asg0.desiredCapacity ∉
        ((replaceRun p env).2).tr) := by
  constructor
  · intro r hok
    exact replaceRun_last p env asg0 newI oldI needed h0 hnew holdI hneed
      hw0 hshort hold r hok
  · intro msg herr
    exact replaceRun_noRestore p env asg0 newI oldI needed b h0 hnew holdI hneed hb
      hw0 hshort hold hbne hM msg herr

/-- C7 witness: a full successful session over `envSession`; its last
mutating call is the restore `updateSize 1 1 1`. -/
theorem claim_C7_witness :
    ((⟨fun k => if 3 ≤ k then asgScaled else asgSession,
        fun _ => true, fun _ => []⟩ : Env).waits 0 = true ∧
      (1 : Int) ≠ 0) ∧
    ((replaceRun ⟨1, true, []⟩ envSession).2).tr.getLast? =
      some (.updateSize 1 1 1) := by
  refine ⟨⟨rfl, by decide⟩, ?_⟩
  have h := (claim_C7 ⟨1, true, []⟩ envSession asgSession [] [instOld] 1 1
    rfl (by decide) (by decide) (by decide) (by decide) rfl
    (by decide) (by decide) (by decide)
    (fun k hk => by
      simp only [envSession]
      rw [if_pos hk]
      decide)).1 (true, asgScaled) rfl
  simpa [asgSession] using h

/-- Group with one attached classic load balancer and one viable member,
for the dead error handler evaluation. -/
def asgOneLB : Asg :=
  ⟨1, 1, 1, "lc-new", ["lb1"], [], "ELB",
   [⟨"i-1", "InService", "Healthy", "lc-new"⟩]⟩

/-- C8, evaluation at the failing input: the except handler at line 392
subscripts the ClientError exception object itself, so any client error
from a classic-load-balancer describe-health call raises an uncaught
TypeError and the module dies with a traceback.  An `InvalidInstance`
error is therefore not downgraded to a zero-healthy result, and a
non-`InvalidInstance` error crashes identically instead of reaching
`fail_json` — both branches of the claimed behavior are dead code. -/
theorem claim_C8_bug :
    elb_healthy asgOneLB none
      (fun _ => LBResp.err ⟨"InvalidInstance", "instance not registered"⟩)
      (fun _ => []) = .typeError ∧
    elb_healthy asgOneLB none
      (fun _ => LBResp.err ⟨"Throttling", "rate exceeded"⟩)
      (fun _ => []) = .typeError ∧
    (HealthyResult.typeError ≠ .count 0) := by
  decide

/-- Is this mutating call a terminate call? -/
def isTermB : MutCall → Bool
  | .terminate _ _ => true
  | _ => false

theorem elb_dreg_poll_iff (f : Nat → Nat) :
    ∀ (fuel k : Nat), elb_dreg_poll f k fuel = true ↔ ∃ j < fuel, f (k + j) = 0 := by
  intro fuel
  induction fuel with
  | zero =>
      intro k
      simp [elb_dreg_poll]
  | succ n ih =>
      intro k
      rw [elb_dreg_poll]
      by_cases h : f k = 0
      · rw [if_pos h]
        constructor
        · intro _
          exact ⟨0, by omega, by simpa using h⟩
        · intro _
          rfl
      · rw [if_neg h]
        rw [ih (k + 1)]
        constructor
        · rintro ⟨j, hj, hf⟩
          exact ⟨j + 1, by omega, by rw [show k + (j + 1) = k + 1 + j from by omega]; exact hf⟩
        · rintro ⟨j, hj, hf⟩
          cases j with
          | zero => exact absurd (by simpa using hf) h
          | succ j =>
              exact ⟨j, by omega, by rw [show k + 1 + j = k + (j + 1) from by omega]; exact hf⟩

theorem termLoop_error_prefix (env : Env) (dec : Bool) :
    ∀ (l : List InstRec) (st : St) (e : String),
      (termLoop env dec l st).1 = .error e →
      ∃ j < l.length,
        ((termLoop env dec l st).2).tr.filter isTermB =
          st.tr.filter isTermB ++
            (l.take j).map (fun i => MutCall.terminate i.instId dec) := by
  intro l
  induction l with
  | nil =>
      intro st e h
      simp [termLoop] at h
  | cons i rest ih =>
      intro st e h
      unfold termLoop at h ⊢
      rcases hd : elb_dregRun env i.instId st with ⟨res, st1⟩
      rw [hd] at h
      obtain ⟨ld, hld, hsh⟩ := elb_dregRun_tr env i.instId st
      rw [hd] at hld
      simp only at hld
      have hldf : st1.tr.filter isTermB = st.tr.filter isTermB := by
        rw [hld, List.filter_append]
        have hnil : ld.filter isTermB = [] := by
          rw [List.filter_eq_nil_iff]
          intro a ha
          have h1 := hsh a ha
          cases a <;> simp_all [isDereg, isTermB]
        rw [hnil, List.append_nil]
      cases res with
      | error e1 =>
          refine ⟨0, by simp, ?_⟩
          simpa using hldf
      | ok u =>
          simp only at h
          obtain ⟨j, hj, heq⟩ :=
            ih { st1 with tr := st1.tr ++ [MutCall.terminate i.instId dec] } e h
          refine ⟨j + 1, by simp; omega, ?_⟩
          simp only [emit]
          rw [heq]
          simp only [List.filter_append, hldf]
          simp [isTermB, List.take_succ_cons]

/-- C9: (1) the deregistration wait succeeds exactly when the combined
still-in-service count across all classic load balancers and target groups
reaches zero at some poll before the deadline — so the fatal timeout is
signalled exactly when the deadline elapses with the instance still
reported in service somewhere; (2) when the deregistration of some batch
member fails fatally, the terminate calls actually issued are exactly
those for the members before it — in particular no terminate call is
issued for the failed member or any later one. -/
theorem claim_C9 :
    (∀ (lbNames tgARNs : List String)
        (lbStates tgStates : Nat → String → List (String × String))
        (instId : String) (fuel : Nat),
      elb_dreg_wait lbNames tgARNs lbStates tgStates instId fuel = true ↔
        ∃ k < fuel,
          dreg_count lbNames tgARNs (lbStates k) (tgStates k) instId = 0) ∧
    (∀ (env : Env) (dec : Bool) (l : List InstRec) (st : St) (e : String),
      st.tr = [] → (termLoop env dec l st).1 = .error e →
      ∃ j < l.length,
        ((termLoop env dec l st).2).tr.filter isTermB =
          (l.take j).map (fun i => MutCall.terminate i.instId dec)) := by
  constructor
  · intro lbNames tgARNs lbStates tgStates instId fuel
    unfold elb_dreg_wait
    rw [elb_dreg_poll_iff]
    simp
  · intro env dec l st e hst herr
    obtain ⟨j, hj, heq⟩ := termLoop_error_prefix env dec l st e herr
    exact ⟨j, hj, by rwa [hst] at heq⟩

/-- C9 witness: a deregistration that drains at the third poll within a
five-poll budget, and a two-member termination loop whose first
deregistration times out, issuing no terminate call at all. -/
theorem claim_C9_witness :
    (elb_dreg_wait ["lb1"] []
      (fun k _ => if k < 2 then [("i-1", "InService")] else []) (fun _ _ => [])
      "i-1" 5 = true ↔
      ∃ k < 5, dreg_count ["lb1"] []
        ((fun k _ => if k < 2 then [("i-1", "InService")] else []) k)
        ((fun _ _ => []) k) "i-1" = 0) ∧
    ((⟨0, 0, 0, []⟩ : St).tr = [] ∧
      (termLoop ⟨fun _ => ⟨1, 2, 1, "lc-new", ["lb1"], [], "ELB", [instOld]⟩,
          fun _ => false, fun _ => ["lb1"]⟩ false
        [InstRec.full instOld, InstRec.full instNew] ⟨0, 0, 0, []⟩).1 =
        .error "Waited too long for instance to deregister." ∧
      ∃ j < 2,
        ((termLoop ⟨fun _ => ⟨1, 2, 1, "lc-new", ["lb1"], [], "ELB", [instOld]⟩,
            fun _ => false, fun _ => ["lb1"]⟩ false
          [InstRec.full instOld, InstRec.full instNew] ⟨0, 0, 0, []⟩).2).tr.filter
            isTermB =
          ([InstRec.full instOld, InstRec.full instNew].take j).map
            (fun i => MutCall.terminate i.instId false)) := by
  refine ⟨claim_C9.1 ["lb1"] [] _ _ "i-1" 5, rfl, rfl, ?_⟩
  exact claim_C9.2 ⟨fun _ => ⟨1, 2, 1, "lc-new", ["lb1"], [], "ELB", [instOld]⟩,
    fun _ => false, fun _ => ["lb1"]⟩ false
    [InstRec.full instOld, InstRec.full instNew] ⟨0, 0, 0, []⟩
    "Waited too long for instance to deregister." rfl rfl

end Ec2Asg
